import Mathlib

/-!
Shallow embedding of `src/app/pr_review_agent.py` (an automated PR review
agent) together with proofs about the embedded functions.

Machine-level conventions used throughout:
* Python strings are `String` (Lean strings are sequences of unicode scalar
  values, matching Python's code-point semantics for slicing and length);
* Python string slicing `s[:n]` is `pySlice s n`;
* Python `sub in s` (substring containment) is `pyContains sub s`;
* Python `s.strip()` is `pyStrip s` (whitespace strip on both ends);
* Python `"----" * 10` is `pyStrMul "----" 10`;
* external gateway calls (GitHub API, OpenAI API, `json.loads`) are passed
  in as function / `Except` parameters: `Except.error` models a raised
  exception, `Except.ok` a successful call;
* review timestamps (`submitted_at` datetimes) are modelled as `Nat`,
  which preserves the linear order used by the code;
* counts of gateway invocations are returned alongside results where the
  claims speak about when a call happens.
-/

/-- Module constant from the source: maximum length (characters) of the
input diff. -/
def MAX_INPUT_LENGTH : Nat := 30000

/-- Module constant from the source: threshold for significant changes. -/
def LINES_CHANGE_THRESHOLD : Nat := 10

/-- Module constant from the source. -/
def FORCE_REVIEW : Bool := false

/-- Whitespace test matching Python's `str.strip()` default character set
(space, tab, newline, carriage return, vertical tab, form feed). -/
def pyIsSpace (c : Char) : Bool :=
  c == ' ' || c == '\t' || c == '\n' || c == '\r' || c == Char.ofNat 11 || c == Char.ofNat 12

/-- Python `s.strip()`: remove leading and trailing whitespace. -/
def pyStrip (s : String) : String :=
  ⟨((s.data.dropWhile pyIsSpace).reverse.dropWhile pyIsSpace).reverse⟩

/-- Boolean test that the first list is an initial segment of the second. -/
def leadsList : List Char → List Char → Bool
  | [], _ => true
  | _ :: _, [] => false
  | a :: as, b :: bs => a == b && leadsList as bs

/-- Boolean test that `sub` occurs contiguously somewhere in the second
list. -/
def hasInfixList (sub : List Char) : List Char → Bool
  | [] => sub.isEmpty
  | l@(_ :: rest) => leadsList sub l || hasInfixList sub rest

/-- Python `sub in s` for strings: substring containment. -/
def pyContains (sub s : String) : Bool := hasInfixList sub.data s.data

/-- Python `s[:n]`: the first `n` code points of `s`. -/
def pySlice (s : String) (n : Nat) : String := ⟨s.data.take n⟩

/-- Python `s * n` for strings: `n` copies of `s` concatenated. -/
def pyStrMul (s : String) (n : Nat) : String := String.join (List.replicate n s)

/-- One changed file of a PR or of a commit comparison, as exposed by the
gateway: filename, status, patch text, additions count, deletions count. -/
structure ChangedFile where
  filename : String
  status : String
  patch : String
  additions : Nat
  deletions : Nat

/-- One review record of a PR as exposed by the gateway: id, body text,
submitted timestamp, associated commit id. -/
structure Review where
  id : Nat
  body : String
  submitted_at : Nat
  commit_id : String

/-- The separator line the source writes between consecutive file blocks:
`"----" * 10 + "\n"`. -/
def separator_line : String := pyStrMul "----" 10 ++ "\n"

/-- The per-file block the source appends for each file:
`Filename: ...\nStatus: ...\nPatch (diff):\n...\n`. -/
def file_block (file : ChangedFile) : String :=
  "Filename: " ++ file.filename ++ "\n" ++
  "Status: " ++ file.status ++ "\n" ++
  "Patch (diff):\n" ++ file.patch ++ "\n"

/-- Loop body of `get_pr_diff` (lines 29-35): concatenate per-file blocks,
inserting the separator after every file except the last
(`if idx < len(files) - 1`). -/
def pr_diff_loop : List ChangedFile → String
  | [] => ""
  | file :: rest =>
      file_block file ++ (if rest.isEmpty then "" else separator_line) ++ pr_diff_loop rest

/-- Embeds `get_pr_diff` (lines 26-40): render all files then truncate to
`MAX_INPUT_LENGTH` via `diff[:MAX_INPUT_LENGTH]`. -/
def get_pr_diff (files : List ChangedFile) : String :=
  pySlice (pr_diff_loop files) MAX_INPUT_LENGTH

/-- Loop body of `get_diff_since_prev_review` (lines 204-210), written out
separately because the source duplicates the rendering loop there. -/
def prev_review_diff_loop : List ChangedFile → String
  | [] => ""
  | file :: rest =>
      file_block file ++ (if rest.isEmpty then "" else separator_line) ++ prev_review_diff_loop rest

/-- Embeds `get_diff_since_prev_review` (lines 188-220). `compareFn` models
`pr.base.repo.compare`; `Except.error` models a raised gateway exception,
which the source's `except` clause converts to `""`. -/
def get_diff_since_prev_review (last_review_commit current_commit : String)
    (compareFn : String → String → Except String (List ChangedFile)) : String :=
  if last_review_commit == current_commit then ""
  else
    match compareFn last_review_commit current_commit with
    | Except.error _ => ""
    | Except.ok files => pySlice (prev_review_diff_loop files) MAX_INPUT_LENGTH

/-- Loop body of `check_existing_agent_review` (lines 117-120): a review
updates the accumulator when its body contains the marker and either no
match was seen yet or its timestamp is strictly greater. -/
def latest_review_step (latest : Option Review) (review : Review) : Option Review :=
  if pyContains "🤖" review.body then
    match latest with
    | none => some review
    | some a => if review.submitted_at > a.submitted_at then some review else some a
  else latest

/-- Embeds `check_existing_agent_review` (lines 109-123) on a successfully
listed review collection. -/
def check_existing_agent_review (reviews : List Review) : Option Review :=
  if reviews.isEmpty then none
  else reviews.foldl latest_review_step none

/-- Embeds `check_existing_agent_review` including its `except` clause
(lines 124-126): a gateway failure while listing reviews yields `none`. -/
def check_existing_agent_review_run (listed : Except String (List Review)) : Option Review :=
  match listed with
  | Except.error _ => none
  | Except.ok reviews => check_existing_agent_review reviews

/-- Embeds `get_lines_changed_since_review` (lines 128-158). The first
component is the returned line count; the second counts how many times the
commit comparison (`pr.base.repo.compare`) was invoked. A failing
`compareFn` models the gateway raising, which the `except` clause turns
into the return value 0. -/
def get_lines_changed_since_review (last_review_commit current_commit : String)
    (compareFn : String → String → Except String (List ChangedFile)) : Nat × Nat :=
  if last_review_commit == current_commit then (0, 0)
  else
    match compareFn last_review_commit current_commit with
    | Except.error _ => (0, 1)
    | Except.ok files =>
        let totals := files.foldl
          (fun (acc : Nat × Nat) file => (acc.1 + file.additions, acc.2 + file.deletions)) (0, 0)
        (totals.1 + totals.2, 1)

/-- Embeds `check_significant_update` (lines 160-175). `linesChangedFn`
stands for the call `get_lines_changed_since_review(pr, existing_review)`;
the second component counts its invocations. -/
def check_significant_update (linesChangedFn : Unit → Nat) : Bool × Nat :=
  let lines_changed := linesChangedFn ()
  (decide (lines_changed > LINES_CHANGE_THRESHOLD), 1)

/-- Embeds `should_proceed_with_review` (lines 177-186), with the
module-level `FORCE_REVIEW` flag passed as the parameter the spec's
contract gives it. The second component counts invocations of
`linesChangedFn`. -/
def should_proceed_with_review (forceFlag : Bool) (existing_review : Option Review)
    (linesChangedFn : Unit → Nat) : Bool × Nat :=
  if forceFlag then (true, 0)
  else
    match existing_review with
    | some _ => check_significant_update linesChangedFn
    | none => (true, 0)

/-- JSON values, modelling what Python's `json.loads` can return. -/
inductive Json where
  | null : Json
  | bool (b : Bool) : Json
  | num (n : Int) : Json
  | str (s : String) : Json
  | arr (elems : List Json) : Json
  | obj (fields : List (String × Json)) : Json

/-- Embeds `generate_line_suggestions` (lines 222-276). `callResult` models
the OpenAI chat-completion call (its text on success, a raised exception on
error); `json_loads` models Python's `json.loads`, `none` standing for a
`JSONDecodeError`. The source strips the response, parses it, returns the
parsed value when it is a list and `[]` in every other case. -/
def generate_line_suggestions (callResult : Except String String)
    (json_loads : String → Option Json) : List Json :=
  match callResult with
  | Except.error _ => []
  | Except.ok content =>
      match json_loads (pyStrip content) with
      | some (Json.arr suggestions) => suggestions
      | some _ => []
      | none => []

/-- The top-level review body built at lines 282-285:
`f"## 🤖 PR Review Agent Suggestion\n\n{review_text}"`. -/
def post_review_body (review_text : String) : String :=
  "## 🤖 PR Review Agent Suggestion\n\n" ++ review_text

/-- Python `dict.get(key)` on a JSON-decoded object, `none` when the key is
absent. -/
def dict_get (fields : List (String × Json)) (key : String) : Option Json :=
  (fields.find? (fun kv => kv.1 == key)).map (fun kv => kv.2)

/-- Python truthiness of a JSON-decoded value. -/
def jTruthy : Json → Bool
  | Json.null => false
  | Json.bool b => b
  | Json.num n => decide (n ≠ 0)
  | Json.str s => !s.isEmpty
  | Json.arr elems => !elems.isEmpty
  | Json.obj fields => !fields.isEmpty

/-- Python truthiness of `dict.get` output (`None` is falsy). -/
def jTruthyOpt : Option Json → Bool
  | none => false
  | some j => jTruthy j

/-- One iteration of the suggestion loop (lines 294-324): extract the
fields with `.get`, test `if filename and line_num and suggestion_text`,
test membership of the filename in the PR file set, then attempt the
anchored-comment post, whose success is modelled by `postOk`. Returns
whether an anchored comment was actually posted; every failing branch
(malformed entry, unknown file, raised post call) is skipped by the
source's inner `except ... continue`. A non-dict entry raises on `.get`
and is likewise skipped. -/
def attempt_suggestion (pr_files : List String) (postOk : Bool) (suggestion : Json) : Bool :=
  match suggestion with
  | Json.obj fields =>
      let filename := dict_get fields "file"
      let line_num := dict_get fields "line"
      let suggestion_text := (dict_get fields "suggestion").getD (Json.str "")
      if jTruthyOpt filename && jTruthyOpt line_num && jTruthy suggestion_text then
        match filename with
        | some (Json.str f) => if pr_files.contains f then postOk else false
        | _ => false
      else false
  | _ => false

/-- The suggestion loop of `post_review_with_suggestions` (lines 294-324):
process each suggestion in order, independently, collecting those for
which an anchored comment was posted. `postOk` models whether the
`create_review_comment` gateway call for a given suggestion succeeds. -/
def post_suggestions_loop (pr_files : List String) (postOk : Json → Bool) :
    List Json → List Json
  | [] => []
  | suggestion :: rest =>
      (if attempt_suggestion pr_files (postOk suggestion) suggestion then [suggestion] else []) ++
        post_suggestions_loop pr_files postOk rest

/-- Observable outcome of `post_review_with_suggestions`: whether the run
was terminated fatally (`sys.exit(1)`), the body of the PR-level review
comment that was posted (if any), and the suggestions for which an
anchored comment was posted. -/
structure PublishResult where
  fatal : Bool
  topBody : Option String
  posted : List Json

/-- Embeds `post_review_with_suggestions` (lines 278-330). `topOk` models
whether the PR-level `create_review` call succeeds; `get_files_result`
models the `pr.get_files()` call of line 292, which runs inside the same
fatal `try` block but only when the suggestion list is nonempty. A failure
of either reaches the outer `except`, which calls `sys.exit(1)` — and when
`get_files` is what raised, the top-level comment has already been posted
by the earlier successful `create_review`. -/
def post_review_with_suggestions (topOk : Bool)
    (get_files_result : Except String (List String)) (postOk : Json → Bool)
    (review_text : String) (suggestions : List Json) : PublishResult :=
  if topOk then
    if suggestions.isEmpty then
      { fatal := false, topBody := some (post_review_body review_text), posted := [] }
    else
      match get_files_result with
      | Except.error _ =>
          { fatal := true, topBody := some (post_review_body review_text), posted := [] }
      | Except.ok pr_files =>
          { fatal := false
            topBody := some (post_review_body review_text)
            posted := post_suggestions_loop pr_files postOk suggestions }
  else
    { fatal := true, topBody := none, posted := [] }

/-- Observable outcome of a run of `main` from the point where the review
history has been fetched (line 368 onward): how many completion-service
calls were made, the publish outcome (if the publish step was reached),
and the process exit code. -/
structure MainTrace where
  completion_calls : Nat
  publish : Option PublishResult
  exit_code : Nat

/-- The thunk `main` effectively hands to the policy: evaluating it
performs `get_lines_changed_since_review(pr, existing_review)`. The
placeholder commit id in the `none` case is never read, because the
policy only forces this thunk when a review exists. -/
def main_lines_fn (existing_review : Option Review) (current_commit : String)
    (compareFn : String → String → Except String (List ChangedFile)) : Unit → Nat :=
  fun _ =>
    (get_lines_changed_since_review
      (match existing_review with
       | some r => r.commit_id
       | none => "") current_commit compareFn).1

/-- Diff selection in `main` (lines 374-379): incremental diff when an
agent review exists, full PR diff otherwise. -/
def main_diff (existing_review : Option Review) (current_commit : String)
    (compareFn : String → String → Except String (List ChangedFile))
    (pr_files : List ChangedFile) : String :=
  match existing_review with
  | some r => get_diff_since_prev_review r.commit_id current_commit compareFn
  | none => get_pr_diff pr_files

/-- Embeds the tail of `main` (lines 370-397): policy check, diff
extraction, the `if not diff.strip(): return` guard, narrative generation
(`generate_review` exits the process when its completion call raises),
suggestion generation, and publishing. `narrativeResult` and
`suggestionResult` model the two completion-service calls;
`publish_files_result` models the fresh `pr.get_files()` call the publish
step makes at line 292. -/
def main_after_history (forceFlag : Bool) (existing_review : Option Review)
    (current_commit : String)
    (compareFn : String → String → Except String (List ChangedFile))
    (pr_files : List ChangedFile)
    (narrativeResult : Except String String)
    (suggestionResult : Except String String)
    (json_loads : String → Option Json)
    (topOk : Bool) (publish_files_result : Except String (List String))
    (postOk : Json → Bool) : MainTrace :=
  if (should_proceed_with_review forceFlag existing_review
        (main_lines_fn existing_review current_commit compareFn)).1 = false then
    { completion_calls := 0, publish := none, exit_code := 0 }
  else
    let diff := main_diff existing_review current_commit compareFn pr_files
    if (pyStrip diff).data.isEmpty then
      { completion_calls := 0, publish := none, exit_code := 0 }
    else
      match narrativeResult with
      | Except.error _ => { completion_calls := 1, publish := none, exit_code := 1 }
      | Except.ok review_text =>
          let suggestions := generate_line_suggestions suggestionResult json_loads
          let result := post_review_with_suggestions topOk publish_files_result postOk
            review_text suggestions
          { completion_calls := 2, publish := some result,
            exit_code := if result.fatal then 1 else 0 }

theorem pySlice_length_le (s : String) (n : Nat) : (pySlice s n).length ≤ n := by
  show (s.data.take n).length ≤ n
  rw [List.length_take]
  exact Nat.min_le_left ..

theorem pySlice_of_length_le (s : String) (n : Nat) (h : s.length ≤ n) : pySlice s n = s := by
  cases s with
  | mk data =>
      show String.mk (data.take n) = String.mk data
      rw [List.take_of_length_le h]

theorem pr_diff_loop_eq_prev_review_diff_loop (files : List ChangedFile) :
    pr_diff_loop files = prev_review_diff_loop files := by
  induction files with
  | nil => rfl
  | cons file rest ih => simp [pr_diff_loop, prev_review_diff_loop, ih]

/-- Claim C4: for every ordered sequence of ChangedFile entries, the length
of the rendered diff is at most MAX_INPUT_LENGTH; when the untruncated
concatenation of per-file blocks (with the separator between consecutive
files but not after the last) fits in MAX_INPUT_LENGTH the output equals
that concatenation; and the empty sequence renders to the empty payload. -/
theorem get_pr_diff_bounded_and_faithful :
    (∀ files : List ChangedFile, (get_pr_diff files).length ≤ MAX_INPUT_LENGTH) ∧
    (∀ files : List ChangedFile, (pr_diff_loop files).length ≤ MAX_INPUT_LENGTH →
      get_pr_diff files = pr_diff_loop files) ∧
    get_pr_diff [] = "" := by
  refine ⟨fun files => pySlice_length_le .., fun files h => pySlice_of_length_le _ _ h, rfl⟩

theorem get_pr_diff_bounded_and_faithful_witness :
    get_pr_diff [⟨"a.py", "modified", "@@ -1 +1 @@", 1, 0⟩] =
      pr_diff_loop [⟨"a.py", "modified", "@@ -1 +1 @@", 1, 0⟩] :=
  get_pr_diff_bounded_and_faithful.2.1 _ (by decide)

/-- Claim C8: the first-time-review rendering (`get_pr_diff`) and the
incremental rendering inside `get_diff_since_prev_review` produce the same
payload on the same ordered file sequence: when the commits differ and the
comparison yields `files`, the incremental path returns exactly
`get_pr_diff files`. -/
theorem diff_rendering_paths_agree (last_review_commit current_commit : String)
    (compareFn : String → String → Except String (List ChangedFile))
    (files : List ChangedFile)
    (hne : last_review_commit ≠ current_commit)
    (hok : compareFn last_review_commit current_commit = Except.ok files) :
    get_diff_since_prev_review last_review_commit current_commit compareFn =
      get_pr_diff files := by
  have hbeq : (last_review_commit == current_commit) = false := by
    simpa using hne
  simp [get_diff_since_prev_review, hbeq, hok, get_pr_diff,
    pr_diff_loop_eq_prev_review_diff_loop]

theorem diff_rendering_paths_agree_witness :
    get_diff_since_prev_review "sha1" "sha2"
        (fun _ _ => Except.ok [⟨"a.py", "added", "+x", 1, 0⟩]) =
      get_pr_diff [⟨"a.py", "added", "+x", 1, 0⟩] :=
  diff_rendering_paths_agree "sha1" "sha2" _ _ (by decide) rfl

/-- Claim C1: the re-review policy implements the decision table exactly.
Forcing always reviews without consulting the lines-changed thunk; no
prior review reviews without consulting it; with a prior review and no
force flag the thunk is consulted exactly once and the answer is
linesChanged > LINES_CHANGE_THRESHOLD (strict, so 10 is rejected and 11
accepted at the default threshold 10). -/
theorem should_proceed_with_review_decision_table :
    ∀ (existing_review : Option Review) (linesChangedFn : Unit → Nat),
      should_proceed_with_review true existing_review linesChangedFn = (true, 0) ∧
      should_proceed_with_review false none linesChangedFn = (true, 0) ∧
      ∀ r : Review,
        should_proceed_with_review false (some r) linesChangedFn =
            (decide (linesChangedFn () > LINES_CHANGE_THRESHOLD), 1) ∧
          (should_proceed_with_review false (some r) (fun _ => 10)).1 = false ∧
          (should_proceed_with_review false (some r) (fun _ => 11)).1 = true := by
  intro existing_review linesChangedFn
  refine ⟨rfl, rfl, fun r => ⟨rfl, rfl, rfl⟩⟩

theorem foldl_additions_deletions_sum :
    ∀ (files : List ChangedFile) (a b : Nat),
      (files.foldl
          (fun (acc : Nat × Nat) file => (acc.1 + file.additions, acc.2 + file.deletions)) (a, b)).1 +
        (files.foldl
          (fun (acc : Nat × Nat) file => (acc.1 + file.additions, acc.2 + file.deletions)) (a, b)).2 =
        a + b + (files.map (fun f => f.additions + f.deletions)).sum := by
  intro files
  induction files with
  | nil => intro a b; simp
  | cons f rest ih =>
      intro a b
      simp only [List.foldl_cons, List.map_cons, List.sum_cons]
      rw [ih]
      omega

/-- Claim C2: `get_lines_changed_since_review` returns 0 with no comparison
call when the review's commit equals the head commit; otherwise, when the
comparison succeeds, it performs exactly one comparison call and returns
the sum of additions and deletions over every compared file; the returned
count is always nonnegative. -/
theorem get_lines_changed_since_review_spec :
    ∀ (last_review_commit current_commit : String)
      (compareFn : String → String → Except String (List ChangedFile)),
      (last_review_commit = current_commit →
        get_lines_changed_since_review last_review_commit current_commit compareFn = (0, 0)) ∧
      (∀ files : List ChangedFile,
        last_review_commit ≠ current_commit →
        compareFn last_review_commit current_commit = Except.ok files →
        get_lines_changed_since_review last_review_commit current_commit compareFn =
          ((files.map (fun f => f.additions + f.deletions)).sum, 1)) ∧
      0 ≤ (get_lines_changed_since_review last_review_commit current_commit compareFn).1 := by
  intro last_review_commit current_commit compareFn
  refine ⟨?_, ?_, Nat.zero_le _⟩
  · intro h
    subst h
    simp [get_lines_changed_since_review]
  · intro files hne hok
    have hbeq : (last_review_commit == current_commit) = false := by simpa using hne
    simp only [get_lines_changed_since_review, hbeq, Bool.false_eq_true, if_false, hok]
    simp only [Prod.mk.injEq]
    refine ⟨?_, trivial⟩
    rw [foldl_additions_deletions_sum files 0 0]
    omega

theorem get_lines_changed_since_review_spec_witness :
    get_lines_changed_since_review "s" "s" (fun _ _ => Except.error "down") = (0, 0) ∧
    get_lines_changed_since_review "s1" "s2"
        (fun _ _ => Except.ok [⟨"a.py", "modified", "p", 3, 4⟩, ⟨"b.py", "added", "q", 2, 0⟩]) =
      (9, 1) :=
  ⟨(get_lines_changed_since_review_spec "s" "s" _).1 rfl, by
    have h := (get_lines_changed_since_review_spec "s1" "s2"
        (fun _ _ => Except.ok
          [⟨"a.py", "modified", "p", 3, 4⟩, ⟨"b.py", "added", "q", 2, 0⟩])).2.1
      [⟨"a.py", "modified", "p", 3, 4⟩, ⟨"b.py", "added", "q", 2, 0⟩] (by decide) rfl
    simpa using h⟩

/-- Claim C6: gateway failures in the history/comparison layer never
propagate: a failure while listing reviews makes the latest-agent-review
lookup return `none`, and a failure of the commit comparison makes the
lines-changed computation return 0. -/
theorem gateway_failures_recovered :
    ∀ (msg : String),
      check_existing_agent_review_run (Except.error msg) = none ∧
      ∀ (last_review_commit current_commit : String)
        (compareFn : String → String → Except String (List ChangedFile)) (e : String),
        compareFn last_review_commit current_commit = Except.error e →
        (get_lines_changed_since_review last_review_commit current_commit compareFn).1 = 0 := by
  intro msg
  refine ⟨rfl, ?_⟩
  intro last_review_commit current_commit compareFn e herr
  by_cases h : (last_review_commit == current_commit) = true
  · simp [get_lines_changed_since_review, h]
  · simp only [Bool.not_eq_true] at h
    simp [get_lines_changed_since_review, h, herr]

theorem gateway_failures_recovered_witness :
    check_existing_agent_review_run (Except.error "listing failed") = none ∧
    (get_lines_changed_since_review "s1" "s2" (fun _ _ => Except.error "compare failed")).1 = 0 :=
  ⟨(gateway_failures_recovered "listing failed").1,
    (gateway_failures_recovered "listing failed").2 "s1" "s2" _ "compare failed" rfl⟩

/-- Claim C7: the suggestion-generation path never aborts the run: a
failing completion call, an unparsable response (such as "not json"), or a
parsed value that is not array-shaped all yield the empty suggestion
sequence. -/
theorem generate_line_suggestions_safe :
    ∀ (json_loads : String → Option Json),
      (∀ e : String, generate_line_suggestions (Except.error e) json_loads = []) ∧
      (∀ content : String, json_loads (pyStrip content) = none →
        generate_line_suggestions (Except.ok content) json_loads = []) ∧
      (∀ (content : String) (v : Json), json_loads (pyStrip content) = some v →
        (∀ elems : List Json, v ≠ Json.arr elems) →
        generate_line_suggestions (Except.ok content) json_loads = []) := by
  intro json_loads
  refine ⟨fun e => rfl, ?_, ?_⟩
  · intro content hnone
    simp [generate_line_suggestions, hnone]
  · intro content v hsome hnotarr
    cases v with
    | arr elems => exact absurd rfl (hnotarr elems)
    | null => simp [generate_line_suggestions, hsome]
    | bool b => simp [generate_line_suggestions, hsome]
    | num n => simp [generate_line_suggestions, hsome]
    | str s => simp [generate_line_suggestions, hsome]
    | obj fields => simp [generate_line_suggestions, hsome]

theorem generate_line_suggestions_safe_witness :
    generate_line_suggestions (Except.ok "not json") (fun _ => none) = [] :=
  (generate_line_suggestions_safe (fun _ => none)).2.1 "not json" rfl

theorem latest_fold_from_some :
    ∀ (l : List Review) (a : Review),
      (l.foldl latest_review_step (some a) = some a ∧
        ∀ x ∈ l, pyContains "🤖" x.body = true → x.submitted_at ≤ a.submitted_at) ∨
      (∃ b l1 l2, l.foldl latest_review_step (some a) = some b ∧ l = l1 ++ b :: l2 ∧
        pyContains "🤖" b.body = true ∧ a.submitted_at < b.submitted_at ∧
        (∀ x ∈ l1, pyContains "🤖" x.body = true → x.submitted_at < b.submitted_at) ∧
        (∀ x ∈ l2, pyContains "🤖" x.body = true → x.submitted_at ≤ b.submitted_at)) := by
  intro l
  induction l with
  | nil => intro a; left; exact ⟨rfl, by simp⟩
  | cons f rest ih =>
      intro a
      by_cases hm : pyContains "🤖" f.body = true
      · by_cases hgt : f.submitted_at > a.submitted_at
        · have hstep : latest_review_step (some a) f = some f := by
            simp [latest_review_step, hm, hgt]
          rcases ih f with ⟨heq, hall⟩ | ⟨b, l1, l2, heq, hsplit, hmb, hlt, h1, h2⟩
          · right
            refine ⟨f, [], rest, ?_, rfl, hm, hgt, by simp, hall⟩
            simpa [List.foldl_cons, hstep] using heq
          · right
            refine ⟨b, f :: l1, l2, ?_, by simp [hsplit], hmb, lt_trans hgt hlt, ?_, h2⟩
            · simpa [List.foldl_cons, hstep] using heq
            · intro x hx hmx
              rcases List.mem_cons.mp hx with hx | hx
              · subst hx; exact hlt
              · exact h1 x hx hmx
        · have hstep : latest_review_step (some a) f = some a := by
            simp [latest_review_step, hm, hgt]
          rcases ih a with ⟨heq, hall⟩ | ⟨b, l1, l2, heq, hsplit, hmb, hlt, h1, h2⟩
          · left
            refine ⟨by simpa [List.foldl_cons, hstep] using heq, ?_⟩
            intro x hx hmx
            rcases List.mem_cons.mp hx with hx | hx
            · subst hx; omega
            · exact hall x hx hmx
          · right
            refine ⟨b, f :: l1, l2, by simpa [List.foldl_cons, hstep] using heq,
              by simp [hsplit], hmb, hlt, ?_, h2⟩
            intro x hx hmx
            rcases List.mem_cons.mp hx with hx | hx
            · subst hx; omega
            · exact h1 x hx hmx
      · have hstep : latest_review_step (some a) f = some a := by
          simp [latest_review_step, hm]
        rcases ih a with ⟨heq, hall⟩ | ⟨b, l1, l2, heq, hsplit, hmb, hlt, h1, h2⟩
        · left
          refine ⟨by simpa [List.foldl_cons, hstep] using heq, ?_⟩
          intro x hx hmx
          rcases List.mem_cons.mp hx with hx | hx
          · subst hx; exact absurd hmx hm
          · exact hall x hx hmx
        · right
          refine ⟨b, f :: l1, l2, by simpa [List.foldl_cons, hstep] using heq,
            by simp [hsplit], hmb, hlt, ?_, h2⟩
          intro x hx hmx
          rcases List.mem_cons.mp hx with hx | hx
          · subst hx; exact absurd hmx hm
          · exact h1 x hx hmx

theorem latest_fold_from_none :
    ∀ l : List Review,
      (l.foldl latest_review_step none = none ∧
        ∀ x ∈ l, pyContains "🤖" x.body = false) ∨
      (∃ b l1 l2, l.foldl latest_review_step none = some b ∧ l = l1 ++ b :: l2 ∧
        pyContains "🤖" b.body = true ∧
        (∀ x ∈ l1, pyContains "🤖" x.body = true → x.submitted_at < b.submitted_at) ∧
        (∀ x ∈ l2, pyContains "🤖" x.body = true → x.submitted_at ≤ b.submitted_at)) := by
  intro l
  induction l with
  | nil => left; exact ⟨rfl, by simp⟩
  | cons f rest ih =>
      by_cases hm : pyContains "🤖" f.body = true
      · have hstep : latest_review_step none f = some f := by
          simp [latest_review_step, hm]
        rcases latest_fold_from_some rest f with ⟨heq, hall⟩ |
          ⟨b, l1, l2, heq, hsplit, hmb, hlt, h1, h2⟩
        · right
          exact ⟨f, [], rest, by simpa [List.foldl_cons, hstep] using heq, rfl, hm,
            by simp, hall⟩
        · right
          refine ⟨b, f :: l1, l2, by simpa [List.foldl_cons, hstep] using heq,
            by simp [hsplit], hmb, ?_, h2⟩
          intro x hx hmx
          rcases List.mem_cons.mp hx with hx | hx
          · subst hx; exact hlt
          · exact h1 x hx hmx
      · have hstep : latest_review_step none f = none := by
          simp [latest_review_step, hm]
        rcases ih with ⟨heq, hall⟩ | ⟨b, l1, l2, heq, hsplit, hmb, h1, h2⟩
        · left
          refine ⟨by simpa [List.foldl_cons, hstep] using heq, ?_⟩
          intro x hx
          rcases List.mem_cons.mp hx with hx | hx
          · subst hx; simpa using hm
          · exact hall x hx
        · right
          refine ⟨b, f :: l1, l2, by simpa [List.foldl_cons, hstep] using heq,
            by simp [hsplit], hmb, ?_, h2⟩
          intro x hx hmx
          rcases List.mem_cons.mp hx with hx | hx
          · subst hx; exact absurd hmx hm
          · exact h1 x hx hmx

/-- Claim C3: the latest-agent-review scan keeps exactly the reviews whose
body contains the marker and returns the kept review with maximum
submitted timestamp, the fold being strict greater-than so that under
equal timestamps the first-seen matching review wins (every matching
review before the result is strictly older, every matching review after
it is at most as old); it returns none exactly when no review body
contains the marker (in particular when there are no reviews). -/
theorem check_existing_agent_review_spec (reviews : List Review) :
    (check_existing_agent_review reviews = none ↔
      ∀ x ∈ reviews, pyContains "🤖" x.body = false) ∧
    ∀ r : Review, check_existing_agent_review reviews = some r →
      pyContains "🤖" r.body = true ∧
      ∃ l1 l2, reviews = l1 ++ r :: l2 ∧
        (∀ x ∈ l1, pyContains "🤖" x.body = true → x.submitted_at < r.submitted_at) ∧
        (∀ x ∈ l2, pyContains "🤖" x.body = true → x.submitted_at ≤ r.submitted_at) := by
  cases reviews with
  | nil =>
      refine ⟨by simp [check_existing_agent_review], ?_⟩
      intro r hr
      simp [check_existing_agent_review] at hr
  | cons f rest =>
      have hch : check_existing_agent_review (f :: rest) =
          (f :: rest).foldl latest_review_step none := rfl
      rcases latest_fold_from_none (f :: rest) with ⟨heq, hall⟩ |
        ⟨b, l1, l2, heq, hsplit, hmb, h1, h2⟩
      · refine ⟨⟨fun _ => hall, fun _ => by rw [hch, heq]⟩, ?_⟩
        intro r hr
        rw [hch, heq] at hr
        simp at hr
      · refine ⟨⟨?_, ?_⟩, ?_⟩
        · intro hnone
          rw [hch, heq] at hnone
          simp at hnone
        · intro hall
          have hb : b ∈ f :: rest := by
            rw [hsplit]
            exact List.mem_append_right _ (List.mem_cons_self ..)
          rw [hall b hb] at hmb
          simp at hmb
        · intro r hr
          rw [hch, heq] at hr
          have hbr : b = r := Option.some.inj hr
          subst hbr
          exact ⟨hmb, l1, l2, hsplit, h1, h2⟩

/-- Sample review used to witness the latest-agent-review theorem. -/
def exampleAgentReview : Review :=
  ⟨7, "## 🤖 PR Review Agent Suggestion\n\nLooks good", 5, "c1"⟩

theorem check_existing_agent_review_spec_witness :
    pyContains "🤖" exampleAgentReview.body = true ∧
    ∃ l1 l2, [exampleAgentReview] = l1 ++ exampleAgentReview :: l2 ∧
      (∀ x ∈ l1, pyContains "🤖" x.body = true →
        x.submitted_at < exampleAgentReview.submitted_at) ∧
      (∀ x ∈ l2, pyContains "🤖" x.body = true →
        x.submitted_at ≤ exampleAgentReview.submitted_at) :=
  (check_existing_agent_review_spec [exampleAgentReview]).2 exampleAgentReview rfl

theorem post_suggestions_loop_eq_filter (pr_files : List String) (postOk : Json → Bool) :
    ∀ suggestions : List Json,
      post_suggestions_loop pr_files postOk suggestions =
        suggestions.filter (fun s => attempt_suggestion pr_files (postOk s) s) := by
  intro suggestions
  induction suggestions with
  | nil => rfl
  | cons s rest ih =>
      by_cases h : attempt_suggestion pr_files (postOk s) s = true
      · simp [post_suggestions_loop, List.filter_cons, h, ih]
      · simp [post_suggestions_loop, List.filter_cons, h, ih]

/-- Counterexample to claim C5 as stated: with the top-level post
succeeded, a nonempty suggestion list and a failing `pr.get_files()`
(line 292, inside the fatal `try`), the run is terminated fatally even
though the PR-level comment was posted — so "fatal only when the
top-level PR-comment post fails" is false on the code. -/
theorem post_review_with_suggestions_claim_counterexample :
    (post_review_with_suggestions true (Except.error "get_files failed") (fun _ => true)
        "text" [Json.obj [("file", Json.str "a.py"), ("line", Json.num 3),
          ("suggestion", Json.str "fix")]]).fatal = true ∧
    (post_review_with_suggestions true (Except.error "get_files failed") (fun _ => true)
        "text" [Json.obj [("file", Json.str "a.py"), ("line", Json.num 3),
          ("suggestion", Json.str "fix")]]).topBody = some (post_review_body "text") :=
  ⟨rfl, rfl⟩

/-- Claim C5 (amended): the publish step is fatal exactly when the
top-level PR-comment post fails, or when the suggestion list is nonempty
and the `pr.get_files()` call that builds the PR file set fails (it sits
in the same fatal `try`, after the top-level comment was posted). In every
non-fatal publish with a suggestion list, suggestions are processed
independently, element by element: the posted anchored comments are
exactly the entries passing field validation and file-set membership whose
own post call succeeds, so a malformed entry or a failing per-suggestion
post is skipped without affecting the others or the run, and the PR-level
comment is posted whatever the suggestion list looks like. -/
theorem post_review_with_suggestions_spec :
    ∀ (topOk : Bool) (get_files_result : Except String (List String)) (postOk : Json → Bool)
      (review_text : String) (suggestions : List Json),
      (topOk = false →
        post_review_with_suggestions topOk get_files_result postOk review_text suggestions =
          { fatal := true, topBody := none, posted := [] }) ∧
      (∀ pr_files : List String, topOk = true → get_files_result = Except.ok pr_files →
        post_review_with_suggestions topOk get_files_result postOk review_text suggestions =
          { fatal := false
            topBody := some (post_review_body review_text)
            posted := suggestions.filter (fun s => attempt_suggestion pr_files (postOk s) s) }) ∧
      (topOk = true → suggestions = [] →
        post_review_with_suggestions topOk get_files_result postOk review_text suggestions =
          { fatal := false, topBody := some (post_review_body review_text), posted := [] }) ∧
      (∀ e : String, topOk = true → get_files_result = Except.error e → suggestions ≠ [] →
        post_review_with_suggestions topOk get_files_result postOk review_text suggestions =
          { fatal := true, topBody := some (post_review_body review_text), posted := [] }) := by
  intro topOk get_files_result postOk review_text suggestions
  refine ⟨?_, ?_, ?_, ?_⟩
  · intro h
    subst h
    rfl
  · intro pr_files htop hok
    subst htop
    cases suggestions with
    | nil => simp [post_review_with_suggestions]
    | cons s rest =>
        simp [post_review_with_suggestions, hok, post_suggestions_loop_eq_filter]
  · intro htop hnil
    subst htop
    subst hnil
    rfl
  · intro e htop herr hne
    subst htop
    cases suggestions with
    | nil => exact absurd rfl hne
    | cons s rest => simp [post_review_with_suggestions, herr]

theorem post_review_with_suggestions_spec_witness :
    post_review_with_suggestions true (Except.ok ["a.py"]) (fun _ => true) "text"
        [Json.obj [("file", Json.str "b.py"), ("line", Json.num 3),
          ("suggestion", Json.str "fix")]] =
      { fatal := false, topBody := some (post_review_body "text"), posted := [] } := by
  have h := (post_review_with_suggestions_spec true (Except.ok ["a.py"]) (fun _ => true)
      "text" [Json.obj [("file", Json.str "b.py"), ("line", Json.num 3),
        ("suggestion", Json.str "fix")]]).2.1 ["a.py"] rfl rfl
  rw [h]
  rfl

theorem hasInfixList_nil_sub (l : List Char) : hasInfixList [] l = true := by
  cases l with
  | nil => rfl
  | cons c rest => simp [hasInfixList, leadsList]

theorem leadsList_append (sub l l2 : List Char) (h : leadsList sub l = true) :
    leadsList sub (l ++ l2) = true := by
  induction sub generalizing l with
  | nil => rfl
  | cons c cs ih =>
      cases l with
      | nil => simp [leadsList] at h
      | cons d ds =>
          simp only [List.cons_append, leadsList, Bool.and_eq_true] at h ⊢
          exact ⟨h.1, ih ds h.2⟩

theorem hasInfixList_append_left (sub l1 l2 : List Char) (h : hasInfixList sub l1 = true) :
    hasInfixList sub (l1 ++ l2) = true := by
  induction l1 with
  | nil =>
      have hs : sub = [] := by
        cases sub with
        | nil => rfl
        | cons a as => simp [hasInfixList] at h
      subst hs
      exact hasInfixList_nil_sub l2
  | cons c rest ih =>
      simp only [hasInfixList, Bool.or_eq_true] at h
      simp only [List.cons_append, hasInfixList, Bool.or_eq_true]
      rcases h with h | h
      · exact Or.inl (leadsList_append _ _ _ h)
      · exact Or.inr (ih h)

/-- Claim C9: every top-level review body this system posts starts with
the fixed header containing the marker glyph the history scan searches
for, so for every narrative text the posted body contains the marker, and
a review holding that body is recognized as an agent review by a
subsequent scan. -/
theorem marker_round_trip :
    ∀ (review_text : String) (i ts : Nat) (cid : String),
      pyContains "🤖" (post_review_body review_text) = true ∧
      check_existing_agent_review [Review.mk i (post_review_body review_text) ts cid] =
        some (Review.mk i (post_review_body review_text) ts cid) := by
  intro review_text i ts cid
  have hcontains : pyContains "🤖" (post_review_body review_text) = true := by
    show hasInfixList "🤖".data
      ("## 🤖 PR Review Agent Suggestion\n\n".data ++ review_text.data) = true
    exact hasInfixList_append_left _ _ _ rfl
  refine ⟨hcontains, ?_⟩
  simp [check_existing_agent_review, List.foldl, latest_review_step, hcontains]

/-- Claim C10: when a run reaches diff extraction (the policy said yes)
and the rendered diff payload is empty or whitespace-only, the run
terminates successfully: exit code 0, no completion-service call, and no
review or suggestion posted. -/
theorem blank_diff_ends_run_without_calls :
    ∀ (forceFlag : Bool) (existing_review : Option Review) (current_commit : String)
      (compareFn : String → String → Except String (List ChangedFile))
      (pr_files : List ChangedFile)
      (narrativeResult suggestionResult : Except String String)
      (json_loads : String → Option Json) (topOk : Bool)
      (publish_files_result : Except String (List String)) (postOk : Json → Bool),
      (should_proceed_with_review forceFlag existing_review
          (main_lines_fn existing_review current_commit compareFn)).1 = true →
      (pyStrip (main_diff existing_review current_commit compareFn pr_files)).data.isEmpty
          = true →
      main_after_history forceFlag existing_review current_commit compareFn pr_files
          narrativeResult suggestionResult json_loads topOk publish_files_result postOk =
        { completion_calls := 0, publish := none, exit_code := 0 } := by
  intro forceFlag existing_review current_commit compareFn pr_files
    narrativeResult suggestionResult json_loads topOk publish_files_result postOk
    hproceed hblank
  simp [main_after_history, hproceed, hblank]

theorem blank_diff_ends_run_without_calls_witness :
    main_after_history false none "head" (fun _ _ => Except.error "x") []
        (Except.ok "text") (Except.ok "[]") (fun _ => none) true (Except.ok [])
        (fun _ => true) =
      { completion_calls := 0, publish := none, exit_code := 0 } :=
  blank_diff_ends_run_without_calls false none "head" (fun _ _ => Except.error "x") []
    (Except.ok "text") (Except.ok "[]") (fun _ => none) true (Except.ok [])
    (fun _ => true) rfl rfl
